import Mathlib

/-!
# tamate: datasource connectors

A shallow embedding of `datasource/mysql.go`, `datasource/mock.go` and
`datasource/csv.go`, followed by the properties established for them.

Conventions of the embedding:

* a Go `map[string]T` is an association list with at most one entry per key
  (`GoMap`); `GoMap.set` is the assignment `m[k] = v`, `GoMap.get?` the lookup;
* a Go `*T` that may be `nil` is an `Option T`;
* a Go `(T, error)` result is an `Except String T`, except where the source
  returns a value next to the error, in which case it is a pair;
* Go `int` is `Int` wrapped to 64 bits where arithmetic happens (`wrapInt64`);
* `strings.ToLower` is a parameter `lower : String → String` of the functions
  that call it: they are verified for every lowering function.
-/

set_option autoImplicit false

namespace Tamate

/-! ## Go library functions used by the sources -/

/-- Go `strings.HasPrefix(s, p)`. -/
def HasPrefix (s p : String) : Bool :=
  p.toList.isPrefixOf s.toList

/-- Worker of `strings.Contains`: does `p` occur in `s` as a contiguous block. -/
def containsChars : List Char → List Char → Bool
  | [], p => p.isPrefixOf []
  | c :: cs, p => p.isPrefixOf (c :: cs) || containsChars cs p

/-- Go `strings.Contains(s, substr)`. -/
def Contains (s substr : String) : Bool :=
  containsChars s.toList substr.toList

/-- Lower-casing of the ASCII letters, leaving every other character alone; it
agrees with `strings.ToLower` on ASCII text and is the lowering function used
for concrete evaluations. -/
def asciiLower (s : String) : String :=
  String.mk (s.toList.map Char.toLower)

/-- Two's-complement wrap of an integer to the range of a 64-bit Go `int`. -/
def wrapInt64 (x : Int) : Int :=
  (x + 2 ^ 63) % 2 ^ 64 - 2 ^ 63

/-! ## Go maps -/

/-- A Go `map[string]V`: its entries, one per key. -/
abbrev GoMap (V : Type) := List (String × V)

/-- The lookup `m[k]` with the `ok` flag. -/
def GoMap.get? {V : Type} : GoMap V → String → Option V
  | [], _ => none
  | (k', v) :: rest, k => if k' = k then some v else GoMap.get? rest k

/-- The assignment `m[k] = v`. -/
def GoMap.set {V : Type} : GoMap V → String → V → GoMap V
  | [], k, v => [(k, v)]
  | (k', v') :: rest, k, v =>
    if k' = k then (k, v) :: rest else (k', v') :: GoMap.set rest k v

/-- The keys of a map. -/
def GoMap.keys {V : Type} (m : GoMap V) : List String :=
  m.map Prod.fst

/-! ## Data model of package `datasource` -/

/-- Modelled from the spec: the declaration of `ColumnType` is not among the
sources; the spec gives it as the closed enumeration
`Int, Float, Bool, String, Date, Datetime, Bytes, Null`. -/
inductive ColumnType where
  | ColumnTypeInt
  | ColumnTypeFloat
  | ColumnTypeBool
  | ColumnTypeString
  | ColumnTypeDate
  | ColumnTypeDatetime
  | ColumnTypeBytes
  | ColumnTypeNull
  deriving DecidableEq, Repr

open ColumnType

/-- The struct `Column`, with the fields the connectors set; the field `Type`
is spelled `Type_`, `Type` being reserved. -/
structure Column where
  Name : String
  Type_ : ColumnType
  OrdinalPosition : Int := 0
  NotNull : Bool := false
  AutoIncrement : Bool := false
  deriving DecidableEq, Repr

/-- The struct `PrimaryKey`. -/
structure PrimaryKey where
  ColumnNames : List String := []
  deriving DecidableEq, Repr

/-- The struct `Schema`; `PrimaryKey` is a pointer that may be nil. -/
structure Schema where
  Name : String := ""
  Columns : List Column := []
  PrimaryKey : Option PrimaryKey := none
  deriving DecidableEq, Repr

/-- The struct `GenericColumnValue`; `V` is the type of the boxed
`interface{}` payload. -/
structure GenericColumnValue (V : Type) where
  Column : Column
  Value : V

/-- The type `RowValues`, a map from column name to value. -/
abbrev RowValues (V : Type) := GoMap (GenericColumnValue V)

/-- The struct `Row`. -/
structure Row (V : Type) where
  Values : RowValues V

/-! ## `datasource/mysql.go` -/

/-- One scanned row of the `INFORMATION_SCHEMA.COLUMNS` query of
`createAllSchemaMap`, in the order of the `Scan` arguments. -/
structure InfoRow where
  tableName : String
  columnName : String
  ordinalPosition : Int
  columnType : String
  columnKey : String
  isNullable : String
  extra : String
  deriving DecidableEq, Repr

/-- The function `mysqlColumnTypeToValueType`: the returned type together with
the returned error (`none` is the nil error). -/
def mysqlColumnTypeToValueType (lower : String → String) (ct : String) :
    ColumnType × Option String :=
  let ct := lower ct
  if HasPrefix ct "int" ||
      HasPrefix ct "smallint" ||
      HasPrefix ct "mediumint" ||
      HasPrefix ct "bigint" then
    (ColumnTypeInt, none)
  else if HasPrefix ct "float" ||
      HasPrefix ct "double" ||
      HasPrefix ct "decimal" then
    (ColumnTypeFloat, none)
  else if HasPrefix ct "char" ||
      HasPrefix ct "varchar" ||
      HasPrefix ct "text" ||
      HasPrefix ct "mediumtext" ||
      HasPrefix ct "longtext" ||
      HasPrefix ct "json" then
    (ColumnTypeString, none)
  else if HasPrefix ct "datetime" ||
      HasPrefix ct "timestamp" then
    (ColumnTypeDatetime, none)
  else if HasPrefix ct "date" then
    (ColumnTypeDate, none)
  else if HasPrefix ct "blob" then
    (ColumnTypeBytes, none)
  else
    (ColumnTypeNull, some ("convertion not found for MySQL type: " ++ ct))

/-- The schema the loop body of `createAllSchemaMap` works on: the entry of the
map for the table, created with only its `Name` when the map has none. -/
def prepareSchema (schemaMap : GoMap Schema) (tableName : String) : Schema :=
  match schemaMap.get? tableName with
  | some schema => schema
  | none => { Name := tableName }

/-- The primary key after the `strings.Contains(columnKey, "PRI")` block of the
loop body. -/
def appendPrimaryKey (schema : Schema) (columnKey columnName : String) :
    Option PrimaryKey :=
  if Contains columnKey "PRI" then
    match schema.PrimaryKey with
    | none => some { ColumnNames := [columnName] }
    | some pk => some { ColumnNames := pk.ColumnNames ++ [columnName] }
  else
    schema.PrimaryKey

/-- One iteration of the scan loop of `createAllSchemaMap` on a scanned row. -/
def createAllSchemaMapStep (lower : String → String) (schemaMap : GoMap Schema)
    (r : InfoRow) : Except String (GoMap Schema) :=
  let schema := prepareSchema schemaMap r.tableName
  let primaryKey := appendPrimaryKey schema r.columnKey r.columnName
  match mysqlColumnTypeToValueType lower r.columnType with
  | (_, some err) => .error err
  | (valueType, none) =>
    let column : Column :=
      { Name := r.columnName
        OrdinalPosition := wrapInt64 (r.ordinalPosition - 1)
        Type_ := valueType
        NotNull := decide (r.isNullable ≠ "YES")
        AutoIncrement := Contains r.extra "auto_increment" }
    .ok (schemaMap.set r.tableName
      { schema with PrimaryKey := primaryKey, Columns := schema.Columns ++ [column] })

/-- The scan loop of `createAllSchemaMap`, from the map built so far. -/
def createAllSchemaMapLoop (lower : String → String) :
    GoMap Schema → List InfoRow → Except String (GoMap Schema)
  | schemaMap, [] => .ok schemaMap
  | schemaMap, r :: rest =>
    match createAllSchemaMapStep lower schemaMap r with
    | .error err => .error err
    | .ok schemaMap' => createAllSchemaMapLoop lower schemaMap' rest

/-- The method `MySQLDatasource.createAllSchemaMap`, on the rows the query
yields. -/
def createAllSchemaMap (lower : String → String) (rows : List InfoRow) :
    Except String (GoMap Schema) :=
  createAllSchemaMapLoop lower [] rows

/-- The method `MySQLDatasource.GetSchema`; `all` is the result of
`createAllSchemaMap`, its entries in the order the `range` loop visits them. -/
def GetSchema (all : Except String (GoMap Schema)) (name : String) :
    Except String Schema :=
  match all with
  | .error err => .error err
  | .ok entries =>
    match entries.find? (fun e => decide (e.1 = name)) with
    | some e => .ok e.2
    | none => .error ("schema not found: " ++ name)

/-- The Go types `colToMySQLType` hands to `reflect.New`; `nilType` is
`reflect.TypeOf(nil)`. -/
inductive GoType where
  | int64
  | sqlNullInt64
  | float64
  | sqlNullFloat64
  | bool
  | sqlNullBool
  | timeTime
  | mysqlNullTime
  | string
  | sqlNullString
  | bytes
  | nilType
  deriving DecidableEq, Repr

/-- The nullable wrappers of `database/sql` and of the MySQL driver: the struct
types with a `Valid` flag, which `Scan` clears for a NULL cell. -/
def GoType.isNullableWrapper : GoType → Bool
  | .sqlNullInt64 | .sqlNullFloat64 | .sqlNullBool | .mysqlNullTime
  | .sqlNullString => true
  | _ => false

/-- The function `colToMySQLType`. -/
def colToMySQLType (c : Column) : GoType :=
  match c.Type_ with
  | ColumnTypeInt => if c.NotNull then .int64 else .sqlNullInt64
  | ColumnTypeFloat => if c.NotNull then .float64 else .sqlNullFloat64
  | ColumnTypeBool => if c.NotNull then .bool else .sqlNullBool
  | ColumnTypeDatetime | ColumnTypeDate =>
    if c.NotNull then .timeTime else .mysqlNullTime
  | ColumnTypeString => if c.NotNull then .string else .sqlNullString
  | ColumnTypeBytes => .bytes
  | ColumnTypeNull => .nilType

/-- The current row of an `*sql.Rows`, as far as `scanRow` uses it: the error
`Scan` returns for a list of destination types, and the value it leaves in the
destination of index `i` of a given type. -/
structure SqlRows (V : Type) where
  scanErr : List GoType → Option String
  cell : Nat → GoType → V

/-- What a call can do: panic, return an error, or return a value. -/
inductive Outcome (α : Type) where
  | panic (msg : String)
  | err (e : String)
  | ok (a : α)

/-- The second loop of `scanRow`: read destination `i` for each column and
store it under the column's name. -/
def scanRowFill {V : Type} (sqlRows : SqlRows V) :
    List Column → Nat → RowValues V → RowValues V
  | [], _, rowValues => rowValues
  | col :: rest, i, rowValues =>
    scanRowFill sqlRows rest (i + 1)
      (rowValues.set col.Name
        { Column := col, Value := sqlRows.cell i (colToMySQLType col) })

/-- The function `scanRow`; `reflect.New` panics on the nil type. -/
def scanRow {V : Type} (sqlRows : SqlRows V) (sc : Schema) : Outcome (Row V) :=
  let types := sc.Columns.map colToMySQLType
  if types.any (fun t => decide (t = GoType.nilType)) then
    .panic "reflect: New(nil)"
  else
    match sqlRows.scanErr types with
    | some err => .err err
    | none => .ok { Values := scanRowFill sqlRows sc.Columns 0 [] }

/-! ## `datasource/mock.go` -/

/-- The payloads `MockDatasource.GetRows` stores in `cv.Value`: nothing (the
nil interface), an `int` or a `string`. -/
inductive MockValue where
  | nil
  | int (n : Int)
  | str (s : String)
  deriving DecidableEq, Repr

/-- The method `MockDatasource.GetSchema`; it ignores the name and never
fails. -/
def MockDatasource.GetSchema (_name : String) : Except String Schema :=
  .ok
    { Columns :=
        [ { Name := "id", Type_ := ColumnTypeInt },
          { Name := "name", Type_ := ColumnTypeString },
          { Name := "age", Type_ := ColumnTypeInt },
          { Name := "birthday", Type_ := ColumnTypeString } ]
      PrimaryKey := some { ColumnNames := ["id"] } }

/-- The `switch col.Name` of `MockDatasource.GetRows`, for loop counter `i`. -/
def mockValue (col : Column) (i : Nat) : MockValue :=
  if col.Name = "id" then .int i
  else if col.Name = "name" then .str (col.Name ++ toString i)
  else if col.Name = "age" then .int i
  else if col.Name = "birthday" then .str "2018-05-28 14:31:00"
  else .nil

/-- The inner loop of `MockDatasource.GetRows`: the `values` map of row `i`. -/
def mockRowValues (i : Nat) : List Column → RowValues MockValue → RowValues MockValue
  | [], values => values
  | col :: rest, values =>
    mockRowValues i rest (values.set col.Name { Column := col, Value := mockValue col i })

/-- The method `MockDatasource.GetRows`; it never fails. -/
def MockDatasource.GetRows (sc : Schema) : Except String (List (Row MockValue)) :=
  .ok ((List.range 100).map fun i => { Values := mockRowValues i sc.Columns [] })

/-! ## `datasource/csv.go` -/

/-- The struct `Rows` of the CSV connector. -/
structure Rows where
  Columns : List String
  Values : List (List String)
  deriving DecidableEq, Repr

/-- The files of the CSV connector: per path, the records `os.Open` and
`csv.NewReader(r).ReadAll()` yield, or the error of the one that fails. -/
abbrev CSVFiles := String → Except String (List (List String))

/-- The columns loop of `CSVDataSource.GetRows`: the fields after the tag of
every record tagged `COLUMN`; reading `record[0]` of a record without fields
panics. -/
def csvColumns : List (List String) → List String → Outcome (List String)
  | [], columns => .ok columns
  | [] :: _, _ => .panic "index out of range [0] with length 0"
  | (tagField :: sheetColumns) :: rest, columns =>
    if tagField = "COLUMN" then csvColumns rest (columns ++ sheetColumns)
    else csvColumns rest columns

/-- The method `CSVDataSource.GetRows` on the file at `path`. -/
def CSVDataSource.GetRows (files : CSVFiles) (path : String) : Outcome Rows :=
  match files path with
  | .error err => .err err
  | .ok records =>
    match csvColumns records [] with
    | .panic msg => .panic msg
    | .err e => .err e
    | .ok columns =>
      if columns.length = 0 then
        .err ("No columns in CSV. Path: " ++ path)
      else
        match records with
        | [] => .panic "slice bounds out of range [1:0]"
        | _ :: values => .ok { Columns := columns, Values := values }

/-- The method `CSVDataSource.SetRows` on the file at `path`, when the file can
be created and every record is written: the files afterwards. -/
def CSVDataSource.SetRows (files : CSVFiles) (path : String) (rows : Rows) : CSVFiles :=
  fun p => if p = path then .ok (rows.Columns :: rows.Values) else files p

/-! ## Definitions used by the statements -/

/-- The MySQL type prefixes `mysqlColumnTypeToValueType` tests for, in the order
of the source. -/
def recognisedPrefixes : List String :=
  ["int", "smallint", "mediumint", "bigint", "float", "double", "decimal",
   "char", "varchar", "text", "mediumtext", "longtext", "json",
   "datetime", "timestamp", "date", "blob"]

/-- The column the loop body appends for a scanned row whose type converts. -/
def columnOfRow (lower : String → String) (r : InfoRow) : Column :=
  { Name := r.columnName
    Type_ := (mysqlColumnTypeToValueType lower r.columnType).1
    OrdinalPosition := wrapInt64 (r.ordinalPosition - 1)
    NotNull := decide (r.isNullable ≠ "YES")
    AutoIncrement := Contains r.extra "auto_increment" }

/-- The rows of table `t`, in read order. -/
def rowsOfTable (t : String) (rows : List InfoRow) : List InfoRow :=
  rows.filter (fun r => decide (r.tableName = t))

/-- The names of the columns of table `t` whose `COLUMN_KEY` contains `PRI`, in
read order. -/
def primaryKeyNames (t : String) (rows : List InfoRow) : List String :=
  ((rowsOfTable t rows).filter (fun r => Contains r.columnKey "PRI")).map
    (fun r => r.columnName)

/-- The primary key holding a list of names: nil for no name. -/
def primaryKeyOfNames : List String → Option PrimaryKey
  | [] => none
  | n :: ns => some { ColumnNames := n :: ns }

/-- The schema of table `t` after the rows `rows`. -/
def tableSchema (lower : String → String) (t : String) (rows : List InfoRow) : Schema :=
  { Name := t
    Columns := (rowsOfTable t rows).map (columnOfRow lower)
    PrimaryKey := primaryKeyOfNames (primaryKeyNames t rows) }

/-- The loop invariant of `createAllSchemaMap`: after the rows `rows`, the map
has one entry per table seen, holding `tableSchema`, and every type converted. -/
def SchemaMapInv (lower : String → String) (m : GoMap Schema) (rows : List InfoRow) :
    Prop :=
  m.keys.Nodup ∧
  (∀ r ∈ rows, (mysqlColumnTypeToValueType lower r.columnType).2 = none) ∧
  (∀ t, rowsOfTable t rows = [] → m.get? t = none) ∧
  (∀ t, rowsOfTable t rows ≠ [] → m.get? t = some (tableSchema lower t rows))

/-- A concrete result of the `INFORMATION_SCHEMA` query: two tables, their rows
interleaved. -/
def demoRows : List InfoRow :=
  [ ⟨"users", "id", 1, "INT(11)", "PRI", "NO", "auto_increment"⟩,
    ⟨"posts", "id", 1, "bigint(20)", "PRI", "NO", ""⟩,
    ⟨"users", "name", 2, "VarChar(255)", "", "YES", ""⟩ ]

/-- The schema map `createAllSchemaMap` builds from `demoRows`. -/
def demoMap : GoMap Schema :=
  [ ("users",
      { Name := "users"
        Columns :=
          [ { Name := "id", Type_ := ColumnTypeInt, OrdinalPosition := 0, NotNull := true,
              AutoIncrement := true },
            { Name := "name", Type_ := ColumnTypeString, OrdinalPosition := 1 } ]
        PrimaryKey := some { ColumnNames := ["id"] } }),
    ("posts",
      { Name := "posts"
        Columns :=
          [ { Name := "id", Type_ := ColumnTypeInt, OrdinalPosition := 0, NotNull := true } ]
        PrimaryKey := some { ColumnNames := ["id"] } }) ]

/-- The values map `rv` is what the columns `cols` have filled: unique keys, the
keys are the names of `cols`, each value carries a column of `cols` named as
its key. -/
def RowFilled {V : Type} (cols : List Column) (rv : RowValues V) : Prop :=
  (GoMap.keys rv).Nodup ∧
  (∀ k, k ∈ GoMap.keys rv ↔ ∃ c ∈ cols, c.Name = k) ∧
  (∀ k v, (k, v) ∈ rv → v.Column ∈ cols ∧ v.Column.Name = k)

/-- The columns of the schema `MockDatasource.GetSchema` returns. -/
def mockColumns : List Column :=
  [ { Name := "id", Type_ := ColumnTypeInt },
    { Name := "name", Type_ := ColumnTypeString },
    { Name := "age", Type_ := ColumnTypeInt },
    { Name := "birthday", Type_ := ColumnTypeString } ]

/-! ## Properties -/

/-! ### String helpers -/

theorem hasPrefix_compatible {s p q : String} (hp : HasPrefix s p = true)
    (hq : HasPrefix s q = true) :
    (p.toList.isPrefixOf q.toList || q.toList.isPrefixOf p.toList) = true := by
  unfold HasPrefix at hp hq
  rw [List.isPrefixOf_iff_prefix] at hp hq
  rw [Bool.or_eq_true, List.isPrefixOf_iff_prefix, List.isPrefixOf_iff_prefix]
  exact List.prefix_or_prefix_of_prefix hp hq

theorem hasPrefix_exclusive {s p q : String} (hp : HasPrefix s p = true)
    (hpq : (p.toList.isPrefixOf q.toList || q.toList.isPrefixOf p.toList) = false) :
    HasPrefix s q = false := by
  cases hq : HasPrefix s q with
  | false => rfl
  | true => rw [hasPrefix_compatible hp hq] at hpq; exact absurd hpq (by decide)

/-! ### `mysqlColumnTypeToValueType` -/

/-- C2: `mysqlColumnTypeToValueType` returns `ColumnTypeNull` exactly when it
returns an error; when it succeeds the type is one of Int, Float, String,
Datetime, Date, Bytes; and it fails exactly when the lower-cased argument
starts with none of the recognised prefixes. -/
theorem mysqlColumnTypeToValueType_null_iff_error (lower : String → String)
    (ct : String) :
    ((mysqlColumnTypeToValueType lower ct).1 = ColumnTypeNull ↔
      (mysqlColumnTypeToValueType lower ct).2 ≠ none) ∧
    ((mysqlColumnTypeToValueType lower ct).2 = none →
      (mysqlColumnTypeToValueType lower ct).1 ∈
        [ColumnTypeInt, ColumnTypeFloat, ColumnTypeString, ColumnTypeDatetime,
         ColumnTypeDate, ColumnTypeBytes]) ∧
    ((mysqlColumnTypeToValueType lower ct).2 ≠ none ↔
      ∀ p ∈ recognisedPrefixes, HasPrefix (lower ct) p = false) := by
  simp only [mysqlColumnTypeToValueType, recognisedPrefixes]
  split_ifs <;> simp_all <;> intros <;> simp_all

/-- C9: the type `mysqlColumnTypeToValueType` returns depends only on the
lower-cased argument; a lower-cased argument starting with `datetime` or
`timestamp` gives `ColumnTypeDatetime`, and one starting with `date` but not
with `datetime` gives `ColumnTypeDate`. -/
theorem mysqlColumnTypeToValueType_date_family (lower : String → String)
    (ct ct' : String) :
    (lower ct = lower ct' →
      mysqlColumnTypeToValueType lower ct = mysqlColumnTypeToValueType lower ct') ∧
    (HasPrefix (lower ct) "datetime" = true ∨ HasPrefix (lower ct) "timestamp" = true →
      mysqlColumnTypeToValueType lower ct = (ColumnTypeDatetime, none)) ∧
    (HasPrefix (lower ct) "date" = true → HasPrefix (lower ct) "datetime" = false →
      mysqlColumnTypeToValueType lower ct = (ColumnTypeDate, none)) := by
  refine ⟨fun h => ?_, fun h => ?_, fun h h' => ?_⟩
  · simp only [mysqlColumnTypeToValueType, h]
  · have key : ∀ q : String,
        (("datetime".toList.isPrefixOf q.toList || q.toList.isPrefixOf "datetime".toList) = false) →
        (("timestamp".toList.isPrefixOf q.toList || q.toList.isPrefixOf "timestamp".toList) = false) →
        HasPrefix (lower ct) q = false := by
      intro q h1 h2
      rcases h with h | h
      · exact hasPrefix_exclusive h h1
      · exact hasPrefix_exclusive h h2
    simp only [mysqlColumnTypeToValueType]
    rw [key "int" (by decide) (by decide), key "smallint" (by decide) (by decide),
      key "mediumint" (by decide) (by decide), key "bigint" (by decide) (by decide),
      key "float" (by decide) (by decide), key "double" (by decide) (by decide),
      key "decimal" (by decide) (by decide), key "char" (by decide) (by decide),
      key "varchar" (by decide) (by decide), key "text" (by decide) (by decide),
      key "mediumtext" (by decide) (by decide), key "longtext" (by decide) (by decide),
      key "json" (by decide) (by decide)]
    rcases h with h | h <;> simp [h]
  · have key : ∀ q : String,
        (("date".toList.isPrefixOf q.toList || q.toList.isPrefixOf "date".toList) = false) →
        HasPrefix (lower ct) q = false := fun q hq => hasPrefix_exclusive h hq
    simp only [mysqlColumnTypeToValueType]
    rw [key "int" (by decide), key "smallint" (by decide),
      key "mediumint" (by decide), key "bigint" (by decide),
      key "float" (by decide), key "double" (by decide),
      key "decimal" (by decide), key "char" (by decide),
      key "varchar" (by decide), key "text" (by decide),
      key "mediumtext" (by decide), key "longtext" (by decide),
      key "json" (by decide), key "timestamp" (by decide)]
    simp [h, h']

/-! ### `colToMySQLType` -/

/-- C3, as the claim states it, fails: for an Int column declared NOT NULL
`colToMySQLType` chooses `int64`, which is no nullable wrapper. -/
theorem colToMySQLType_notNull_plain :
    colToMySQLType { Name := "id", Type_ := ColumnTypeInt, NotNull := true } = GoType.int64 ∧
    (colToMySQLType { Name := "id", Type_ := ColumnTypeInt, NotNull := true }).isNullableWrapper
      = false := by
  decide

/-- C3, amended: for a column of type Int, Float, Bool, String, Date or
Datetime, `colToMySQLType` chooses a nullable wrapper exactly when the column's
`NotNull` flag is false; with the flag set it chooses the plain type. -/
theorem colToMySQLType_wrapper_iff_nullable (c : Column)
    (h : c.Type_ ∈ [ColumnTypeInt, ColumnTypeFloat, ColumnTypeBool, ColumnTypeString,
      ColumnTypeDate, ColumnTypeDatetime]) :
    ((colToMySQLType c).isNullableWrapper = true ↔ c.NotNull = false) ∧
    (c.NotNull = true →
      colToMySQLType c ∈ [GoType.int64, GoType.float64, GoType.bool, GoType.timeTime,
        GoType.string]) := by
  obtain ⟨name, ty, pos, notNull, auto⟩ := c
  cases ty <;> cases notNull <;> simp_all [colToMySQLType, GoType.isNullableWrapper]

theorem colToMySQLType_wrapper_iff_nullable_witness :
    ((colToMySQLType { Name := "age", Type_ := ColumnTypeInt }).isNullableWrapper = true ↔
      ({ Name := "age", Type_ := ColumnTypeInt } : Column).NotNull = false) ∧
    (({ Name := "age", Type_ := ColumnTypeInt } : Column).NotNull = true →
      colToMySQLType { Name := "age", Type_ := ColumnTypeInt } ∈
        [GoType.int64, GoType.float64, GoType.bool, GoType.timeTime, GoType.string]) :=
  colToMySQLType_wrapper_iff_nullable { Name := "age", Type_ := ColumnTypeInt } (by decide)

theorem colToMySQLType_eq_nil_iff (c : Column) :
    colToMySQLType c = GoType.nilType ↔ c.Type_ = ColumnTypeNull := by
  obtain ⟨name, ty, pos, notNull, auto⟩ := c
  cases ty <;> cases notNull <;> simp [colToMySQLType]

/-! ### Go maps -/

theorem GoMap.get?_set {V : Type} (m : GoMap V) (k k' : String) (v : V) :
    (m.set k v).get? k' = if k = k' then some v else m.get? k' := by
  induction m with
  | nil => simp [GoMap.set, GoMap.get?]
  | cons e rest ih =>
    obtain ⟨k₀, v₀⟩ := e
    by_cases h : k₀ = k
    · subst h
      by_cases h' : k₀ = k' <;> simp [GoMap.set, GoMap.get?, h']
    · by_cases h' : k₀ = k'
      · subst h'
        simp [GoMap.set, GoMap.get?, h, Ne.symm h]
      · simp [GoMap.set, GoMap.get?, h, h', ih]

theorem GoMap.mem_keys_set {V : Type} (m : GoMap V) (k k' : String) (v : V) :
    k' ∈ (m.set k v).keys ↔ k' = k ∨ k' ∈ m.keys := by
  induction m with
  | nil => simp [GoMap.set, GoMap.keys]
  | cons e rest ih =>
    obtain ⟨k₀, v₀⟩ := e
    by_cases h : k₀ = k
    · subst h
      simp [GoMap.set, GoMap.keys]
    · simp only [GoMap.keys] at ih
      simp only [GoMap.set, h, if_false, GoMap.keys, List.map_cons, List.mem_cons, ih]
      tauto

theorem GoMap.nodup_keys_set {V : Type} (m : GoMap V) (k : String) (v : V)
    (h : m.keys.Nodup) : (m.set k v).keys.Nodup := by
  induction m with
  | nil => simp [GoMap.set, GoMap.keys]
  | cons e rest ih =>
    obtain ⟨k₀, v₀⟩ := e
    have h' : k₀ ∉ GoMap.keys rest ∧ (GoMap.keys rest).Nodup := by
      simpa [GoMap.keys] using h
    by_cases hk : k₀ = k
    · subst hk
      simpa [GoMap.set, GoMap.keys] using h
    · have hset : GoMap.set ((k₀, v₀) :: rest) k v = (k₀, v₀) :: GoMap.set rest k v := by
        simp [GoMap.set, hk]
      rw [hset]
      have hnot : k₀ ∉ (GoMap.set rest k v).keys := by
        rw [GoMap.mem_keys_set]
        exact fun hmem => hmem.elim hk h'.1
      have hcons : GoMap.keys ((k₀, v₀) :: GoMap.set rest k v)
          = k₀ :: GoMap.keys (GoMap.set rest k v) := rfl
      rw [hcons]
      exact List.nodup_cons.mpr ⟨hnot, ih h'.2⟩

theorem GoMap.mem_of_get? {V : Type} (m : GoMap V) (k : String) (v : V)
    (h : m.get? k = some v) : (k, v) ∈ m := by
  induction m with
  | nil => simp [GoMap.get?] at h
  | cons e rest ih =>
    obtain ⟨k₀, v₀⟩ := e
    by_cases hk : k₀ = k
    · subst hk
      simp [GoMap.get?] at h
      simp [h]
    · simp only [GoMap.get?, hk, if_false] at h
      exact List.mem_cons_of_mem _ (ih h)

theorem GoMap.get?_of_mem {V : Type} (m : GoMap V) (k : String) (v : V)
    (hnd : m.keys.Nodup) (h : (k, v) ∈ m) : m.get? k = some v := by
  induction m with
  | nil => simp at h
  | cons e rest ih =>
    obtain ⟨k₀, v₀⟩ := e
    have h' : k₀ ∉ GoMap.keys rest ∧ (GoMap.keys rest).Nodup := by
      simpa [GoMap.keys] using hnd
    rcases List.mem_cons.mp h with heq | hmem
    · cases heq
      simp [GoMap.get?]
    · have hne : k₀ ≠ k := by
        intro hk
        subst hk
        exact h'.1 (List.mem_map_of_mem Prod.fst hmem)
      simp only [GoMap.get?, hne, if_false]
      exact ih h'.2 hmem

theorem GoMap.get?_eq_none_iff {V : Type} (m : GoMap V) (k : String) :
    m.get? k = none ↔ k ∉ m.keys := by
  induction m with
  | nil => simp [GoMap.get?, GoMap.keys]
  | cons e rest ih =>
    obtain ⟨k₀, v₀⟩ := e
    simp only [GoMap.keys] at ih
    by_cases hk : k₀ = k
    · subst hk
      simp [GoMap.get?, GoMap.keys]
    · simp [GoMap.get?, GoMap.keys, hk, ih, Ne.symm hk]

/-! ### `createAllSchemaMap`: what the loop has built after a list of rows -/

theorem tableSchema_of_no_rows (lower : String → String) (t : String)
    (rows : List InfoRow) (h : rowsOfTable t rows = []) :
    tableSchema lower t rows = { Name := t } := by
  simp [tableSchema, primaryKeyNames, h, primaryKeyOfNames]

theorem prepareSchema_of_inv (lower : String → String) (m : GoMap Schema)
    (rows : List InfoRow) (t : String) (h : SchemaMapInv lower m rows) :
    prepareSchema m t = tableSchema lower t rows := by
  obtain ⟨_, _, hnone, hsome⟩ := h
  by_cases ht : rowsOfTable t rows = []
  · simp [prepareSchema, hnone t ht, tableSchema_of_no_rows lower t rows ht]
  · simp [prepareSchema, hsome t ht]

theorem rowsOfTable_append (t : String) (rows : List InfoRow) (r : InfoRow) :
    rowsOfTable t (rows ++ [r])
      = if r.tableName = t then rowsOfTable t rows ++ [r] else rowsOfTable t rows := by
  by_cases h : r.tableName = t <;> simp [rowsOfTable, List.filter_append, h]

theorem primaryKeyOfNames_append (names : List String) (n : String) :
    primaryKeyOfNames (names ++ [n])
      = (match primaryKeyOfNames names with
        | none => some { ColumnNames := [n] }
        | some pk => some { ColumnNames := pk.ColumnNames ++ [n] }) := by
  cases names <;> simp [primaryKeyOfNames]

theorem appendPrimaryKey_tableSchema (lower : String → String) (rows : List InfoRow)
    (r : InfoRow) :
    appendPrimaryKey (tableSchema lower r.tableName rows) r.columnKey r.columnName
      = primaryKeyOfNames (primaryKeyNames r.tableName (rows ++ [r])) := by
  by_cases h : Contains r.columnKey "PRI" = true
  · simp [appendPrimaryKey, h, tableSchema, primaryKeyNames, rowsOfTable_append,
      List.filter_append, primaryKeyOfNames_append]
  · simp [appendPrimaryKey, h, tableSchema, primaryKeyNames, rowsOfTable_append,
      List.filter_append]

theorem createAllSchemaMapStep_inv (lower : String → String) (m m' : GoMap Schema)
    (rows : List InfoRow) (r : InfoRow) (h : SchemaMapInv lower m rows)
    (hstep : createAllSchemaMapStep lower m r = .ok m') :
    SchemaMapInv lower m' (rows ++ [r]) := by
  have hprep := prepareSchema_of_inv lower m rows r.tableName h
  obtain ⟨hnd, hconv, hnone, hsome⟩ := h
  unfold createAllSchemaMapStep at hstep
  simp only [hprep, appendPrimaryKey_tableSchema] at hstep
  cases hty : mysqlColumnTypeToValueType lower r.columnType with
  | mk valueType err =>
    cases err with
    | some e => simp [hty] at hstep
    | none =>
      simp only [hty, Except.ok.injEq] at hstep
      subst hstep
      refine ⟨GoMap.nodup_keys_set _ _ _ hnd, ?_, ?_, ?_⟩
      · intro r' hr'
        rcases List.mem_append.mp hr' with hr' | hr'
        · exact hconv r' hr'
        · simp only [List.mem_singleton] at hr'
          subst hr'
          simp [hty]
      · intro t ht
        rw [rowsOfTable_append] at ht
        by_cases htt : r.tableName = t
        · simp [htt] at ht
        · simp only [htt, if_false] at ht
          rw [GoMap.get?_set]
          simp [htt, hnone t ht]
      · intro t ht
        rw [GoMap.get?_set]
        by_cases htt : r.tableName = t
        · subst htt
          simp [tableSchema, rowsOfTable_append, columnOfRow, hty]
        · have ht' : rowsOfTable t rows ≠ [] := by
            rw [rowsOfTable_append] at ht
            simpa [htt] using ht
          simp only [htt, if_false, hsome t ht']
          simp [tableSchema, primaryKeyNames, rowsOfTable_append, htt]

theorem createAllSchemaMapLoop_inv (lower : String → String) (rest : List InfoRow) :
    ∀ (m m' : GoMap Schema) (rows : List InfoRow), SchemaMapInv lower m rows →
      createAllSchemaMapLoop lower m rest = .ok m' →
      SchemaMapInv lower m' (rows ++ rest) := by
  induction rest with
  | nil =>
    intro m m' rows h hloop
    simp only [createAllSchemaMapLoop, Except.ok.injEq] at hloop
    subst hloop
    simpa using h
  | cons r rest ih =>
    intro m m' rows h hloop
    simp only [createAllSchemaMapLoop] at hloop
    cases hstep : createAllSchemaMapStep lower m r with
    | error e => simp [hstep] at hloop
    | ok m₁ =>
      simp only [hstep] at hloop
      have := ih m₁ m' (rows ++ [r]) (createAllSchemaMapStep_inv lower m m₁ rows r h hstep) hloop
      simpa using this

theorem createAllSchemaMap_inv (lower : String → String) (rows : List InfoRow)
    (m : GoMap Schema) (h : createAllSchemaMap lower rows = .ok m) :
    SchemaMapInv lower m rows := by
  have hinit : SchemaMapInv lower [] [] := by
    refine ⟨by simp [GoMap.keys], by simp, fun t _ => by simp [GoMap.get?], fun t ht => ?_⟩
    simp [rowsOfTable] at ht
  simpa using createAllSchemaMapLoop_inv lower rows [] m [] hinit h

/-- The loop succeeds when every column type of the rows converts. -/
theorem createAllSchemaMapLoop_succeeds (lower : String → String) (rest : List InfoRow)
    (hconv : ∀ r ∈ rest, (mysqlColumnTypeToValueType lower r.columnType).2 = none) :
    ∀ m : GoMap Schema, ∃ m', createAllSchemaMapLoop lower m rest = .ok m' := by
  induction rest with
  | nil => intro m; exact ⟨m, rfl⟩
  | cons r rest ih =>
    intro m
    have hr := hconv r (List.mem_cons_self _ _)
    cases hty : mysqlColumnTypeToValueType lower r.columnType with
    | mk valueType err =>
      rw [hty] at hr
      simp only at hr
      subst hr
      have hstep : ∃ m₁, createAllSchemaMapStep lower m r = .ok m₁ := by
        simp [createAllSchemaMapStep, hty]
      obtain ⟨m₁, hm₁⟩ := hstep
      obtain ⟨m', hm'⟩ := ih (fun r' hr' => hconv r' (List.mem_cons_of_mem _ hr')) m₁
      exact ⟨m', by simp [createAllSchemaMapLoop, hm₁, hm']⟩

theorem wrapInt64_pred (x : Int) (hlo : -2 ^ 63 < x) (hhi : x < 2 ^ 63) :
    wrapInt64 (x - 1) = x - 1 := by
  unfold wrapInt64
  norm_num at hlo hhi ⊢
  omega

/-- The map entries are the schemas of the tables seen. -/
theorem createAllSchemaMap_entry (lower : String → String) (rows : List InfoRow)
    (m : GoMap Schema) (h : createAllSchemaMap lower rows = .ok m)
    (key : String) (sc : Schema) (hmem : (key, sc) ∈ m) :
    rowsOfTable key rows ≠ [] ∧ sc = tableSchema lower key rows := by
  obtain ⟨hnd, _, hnone, hsome⟩ := createAllSchemaMap_inv lower rows m h
  have hget := GoMap.get?_of_mem m key sc hnd hmem
  have hne : rowsOfTable key rows ≠ [] := by
    intro hnil
    rw [hnone key hnil] at hget
    exact absurd hget (by simp)
  refine ⟨hne, ?_⟩
  rw [hsome key hne] at hget
  exact (Option.some.inj hget).symm

/-- C1: in every map `createAllSchemaMap` returns, each schema's `Name` is its
key, and a present `PrimaryKey` has a non-empty `ColumnNames` all of whose names
are names of columns of that schema. -/
theorem createAllSchemaMap_wellformed (lower : String → String) (rows : List InfoRow)
    (m : GoMap Schema) (h : createAllSchemaMap lower rows = .ok m) :
    ∀ key sc, (key, sc) ∈ m →
      sc.Name = key ∧
      ∀ pk, sc.PrimaryKey = some pk →
        pk.ColumnNames ≠ [] ∧ ∀ n ∈ pk.ColumnNames, ∃ c ∈ sc.Columns, c.Name = n := by
  intro key sc hmem
  obtain ⟨_, hsc⟩ := createAllSchemaMap_entry lower rows m h key sc hmem
  subst hsc
  refine ⟨rfl, fun pk hpk => ?_⟩
  simp only [tableSchema] at hpk ⊢
  cases hnames : primaryKeyNames key rows with
  | nil => simp [hnames, primaryKeyOfNames] at hpk
  | cons n ns =>
    simp only [hnames, primaryKeyOfNames, Option.some.injEq] at hpk
    subst hpk
    refine ⟨by simp, fun n' hn' => ?_⟩
    simp only at hn'
    rw [← hnames] at hn'
    simp only [primaryKeyNames, List.mem_map, List.mem_filter] at hn'
    obtain ⟨r, ⟨hr, _⟩, hname⟩ := hn'
    exact ⟨columnOfRow lower r, List.mem_map_of_mem _ hr, by simpa [columnOfRow] using hname⟩

theorem createAllSchemaMap_wellformed_witness :
    createAllSchemaMap asciiLower demoRows = .ok demoMap ∧
    ∀ key sc, (key, sc) ∈ demoMap →
      sc.Name = key ∧
      ∀ pk, sc.PrimaryKey = some pk →
        pk.ColumnNames ≠ [] ∧ ∀ n ∈ pk.ColumnNames, ∃ c ∈ sc.Columns, c.Name = n :=
  ⟨rfl, createAllSchemaMap_wellformed asciiLower demoRows demoMap rfl⟩

/-- C7: when `createAllSchemaMap` succeeds, every column type of the rows
converted, and for each table `t` of the rows the schema stored under `t` has
one column per row of `t`, in read order, with `Name` the column name, `Type`
the converted column type, `OrdinalPosition` the Go difference
`ORDINAL_POSITION - 1` (the integer `ORDINAL_POSITION - 1` for every position
above the least 64-bit integer), `NotNull` true exactly when `IS_NULLABLE` is
not `YES`, `AutoIncrement` true exactly when `EXTRA` contains `auto_increment`;
its `PrimaryKey` lists, in read order, the names of the rows of `t` whose
`COLUMN_KEY` contains `PRI`, and is nil when there is none. -/
theorem createAllSchemaMap_columns (lower : String → String) (rows : List InfoRow)
    (m : GoMap Schema) (h : createAllSchemaMap lower rows = .ok m)
    (t : String) (ht : ∃ r ∈ rows, r.tableName = t) :
    (∀ r ∈ rows, (mysqlColumnTypeToValueType lower r.columnType).2 = none) ∧
    ∃ sc, m.get? t = some sc ∧
      sc.Columns = (rowsOfTable t rows).map (fun r =>
        { Name := r.columnName
          Type_ := (mysqlColumnTypeToValueType lower r.columnType).1
          OrdinalPosition := wrapInt64 (r.ordinalPosition - 1)
          NotNull := decide (r.isNullable ≠ "YES")
          AutoIncrement := Contains r.extra "auto_increment" }) ∧
      ((∀ r ∈ rows, -2 ^ 63 < r.ordinalPosition ∧ r.ordinalPosition < 2 ^ 63) →
        sc.Columns = (rowsOfTable t rows).map (fun r =>
          { Name := r.columnName
            Type_ := (mysqlColumnTypeToValueType lower r.columnType).1
            OrdinalPosition := r.ordinalPosition - 1
            NotNull := decide (r.isNullable ≠ "YES")
            AutoIncrement := Contains r.extra "auto_increment" })) ∧
      sc.PrimaryKey =
        (if primaryKeyNames t rows = [] then none
          else some { ColumnNames := primaryKeyNames t rows }) := by
  obtain ⟨_, hconv, _, hsome⟩ := createAllSchemaMap_inv lower rows m h
  have hne : rowsOfTable t rows ≠ [] := by
    obtain ⟨r, hr, hrt⟩ := ht
    intro hnil
    have : r ∈ rowsOfTable t rows := by simp [rowsOfTable, hr, hrt]
    rw [hnil] at this
    exact absurd this (by simp)
  refine ⟨hconv, tableSchema lower t rows, hsome t hne, rfl, ?_, ?_⟩
  · intro hrange
    simp only [tableSchema]
    apply List.map_congr_left
    intro r hr
    have hr' : r ∈ rows := (List.mem_filter.mp hr).1
    simp only [columnOfRow, wrapInt64_pred r.ordinalPosition (hrange r hr').1 (hrange r hr').2]
  · simp only [tableSchema]
    cases primaryKeyNames t rows <;> simp [primaryKeyOfNames]

theorem createAllSchemaMap_columns_witness :
    createAllSchemaMap asciiLower demoRows = .ok demoMap ∧
    (∀ r ∈ demoRows, (mysqlColumnTypeToValueType asciiLower r.columnType).2 = none) ∧
    ∃ sc, demoMap.get? "users" = some sc ∧
      sc.Columns = (rowsOfTable "users" demoRows).map (fun r =>
        { Name := r.columnName
          Type_ := (mysqlColumnTypeToValueType asciiLower r.columnType).1
          OrdinalPosition := wrapInt64 (r.ordinalPosition - 1)
          NotNull := decide (r.isNullable ≠ "YES")
          AutoIncrement := Contains r.extra "auto_increment" }) ∧
      ((∀ r ∈ demoRows, -2 ^ 63 < r.ordinalPosition ∧ r.ordinalPosition < 2 ^ 63) →
        sc.Columns = (rowsOfTable "users" demoRows).map (fun r =>
          { Name := r.columnName
            Type_ := (mysqlColumnTypeToValueType asciiLower r.columnType).1
            OrdinalPosition := r.ordinalPosition - 1
            NotNull := decide (r.isNullable ≠ "YES")
            AutoIncrement := Contains r.extra "auto_increment" })) ∧
      sc.PrimaryKey =
        (if primaryKeyNames "users" demoRows = [] then none
          else some { ColumnNames := primaryKeyNames "users" demoRows }) :=
  ⟨rfl, createAllSchemaMap_columns asciiLower demoRows demoMap rfl "users"
    ⟨⟨"users", "id", 1, "INT(11)", "PRI", "NO", "auto_increment"⟩, by decide, rfl⟩⟩

theorem mysqlColumnTypeToValueType_ne_null (lower : String → String) (ct : String)
    (h : (mysqlColumnTypeToValueType lower ct).2 = none) :
    (mysqlColumnTypeToValueType lower ct).1 ≠ ColumnTypeNull := by
  revert h
  simp only [mysqlColumnTypeToValueType]
  split_ifs <;> simp

theorem scanRow_no_panic {V : Type} (sqlRows : SqlRows V) (sc : Schema)
    (h : ∀ c ∈ sc.Columns, colToMySQLType c ≠ GoType.nilType) (msg : String) :
    scanRow sqlRows sc ≠ Outcome.panic msg := by
  have hany : (sc.Columns.map colToMySQLType).any (fun t => decide (t = GoType.nilType))
      = false := by
    simpa [List.any_eq_false] using h
  simp only [scanRow, hany]
  cases sqlRows.scanErr (sc.Columns.map colToMySQLType) <;> simp

/-- C8: for every schema `createAllSchemaMap` returns, `colToMySQLType` gives a
non-nil Go type for each column, so `scanRow` does not panic in `reflect.New`;
`colToMySQLType` gives the nil type exactly for a column of type
`ColumnTypeNull`. -/
theorem createAllSchemaMap_columns_scannable (lower : String → String)
    (rows : List InfoRow) (m : GoMap Schema)
    (h : createAllSchemaMap lower rows = .ok m) :
    (∀ key sc, (key, sc) ∈ m →
      (∀ c ∈ sc.Columns, colToMySQLType c ≠ GoType.nilType) ∧
      ∀ (V : Type) (sqlRows : SqlRows V) (msg : String),
        scanRow sqlRows sc ≠ Outcome.panic msg) ∧
    (∀ c : Column, colToMySQLType c = GoType.nilType ↔ c.Type_ = ColumnTypeNull) := by
  refine ⟨fun key sc hmem => ?_, colToMySQLType_eq_nil_iff⟩
  obtain ⟨_, hsc⟩ := createAllSchemaMap_entry lower rows m h key sc hmem
  obtain ⟨_, hconv, _, _⟩ := createAllSchemaMap_inv lower rows m h
  have hcols : ∀ c ∈ sc.Columns, colToMySQLType c ≠ GoType.nilType := by
    intro c hc
    subst hsc
    simp only [tableSchema, List.mem_map] at hc
    obtain ⟨r, hr, hcr⟩ := hc
    have hr' : r ∈ rows := (List.mem_filter.mp hr).1
    rw [Ne, colToMySQLType_eq_nil_iff, ← hcr]
    exact mysqlColumnTypeToValueType_ne_null lower r.columnType (hconv r hr')
  exact ⟨hcols, fun V sqlRows msg => scanRow_no_panic sqlRows sc hcols msg⟩

theorem createAllSchemaMap_columns_scannable_witness :
    createAllSchemaMap asciiLower demoRows = .ok demoMap ∧
    (∀ key sc, (key, sc) ∈ demoMap →
      (∀ c ∈ sc.Columns, colToMySQLType c ≠ GoType.nilType) ∧
      ∀ (V : Type) (sqlRows : SqlRows V) (msg : String),
        scanRow sqlRows sc ≠ Outcome.panic msg) ∧
    (∀ c : Column, colToMySQLType c = GoType.nilType ↔ c.Type_ = ColumnTypeNull) :=
  ⟨rfl, createAllSchemaMap_columns_scannable asciiLower demoRows demoMap rfl⟩

/-! ### `MySQLDatasource.GetSchema` -/

theorem GetSchema_of_get?_some (m visit : GoMap Schema) (name : String) (sc : Schema)
    (hnd : m.keys.Nodup) (hperm : visit.Perm m) (h : m.get? name = some sc) :
    GetSchema (.ok visit) name = .ok sc := by
  have hmem : (name, sc) ∈ visit := hperm.mem_iff.mpr (GoMap.mem_of_get? m name sc h)
  cases hfind : visit.find? (fun e => decide (e.1 = name)) with
  | none =>
    have := List.find?_eq_none.mp hfind (name, sc) hmem
    simp at this
  | some e =>
    have he : e ∈ visit := List.mem_of_find?_eq_some hfind
    have hk : e.1 = name := by simpa using List.find?_some hfind
    have hget : m.get? name = some e.2 := by
      apply GoMap.get?_of_mem m name e.2 hnd
      rw [← hk]
      exact hperm.mem_iff.mp he
    rw [h] at hget
    simp only [GetSchema, hfind]
    rw [Option.some.inj hget]

theorem GetSchema_of_get?_none (m visit : GoMap Schema) (name : String)
    (hperm : visit.Perm m) (h : m.get? name = none) :
    GetSchema (.ok visit) name = .error ("schema not found: " ++ name) := by
  cases hfind : visit.find? (fun e => decide (e.1 = name)) with
  | none => simp [GetSchema, hfind]
  | some e =>
    have he : e ∈ m := hperm.mem_iff.mp (List.mem_of_find?_eq_some hfind)
    have hk : e.1 = name := by simpa using List.find?_some hfind
    have hkeys : name ∈ m.keys := by
      rw [← hk]
      exact List.mem_map_of_mem Prod.fst he
    exact absurd hkeys ((GoMap.get?_eq_none_iff m name).mp h)

/-- C4: `GetSchema` returns an error of `createAllSchemaMap` unchanged; on a
map `m` built by `createAllSchemaMap`, visited in any order, it returns a schema
exactly when `m` has an entry for `name`, that schema is the entry and its
`Name` is `name`, and without an entry it returns the error
`schema not found: ` followed by `name`. -/
theorem GetSchema_spec (lower : String → String) (rows : List InfoRow) (name : String) :
    (∀ err, createAllSchemaMap lower rows = .error err →
      GetSchema (createAllSchemaMap lower rows) name = .error err) ∧
    (∀ m visit, createAllSchemaMap lower rows = .ok m → visit.Perm m →
      ((∃ sc, GetSchema (.ok visit) name = .ok sc) ↔ (∃ sc, m.get? name = some sc)) ∧
      (∀ sc, m.get? name = some sc →
        GetSchema (.ok visit) name = .ok sc ∧ sc.Name = name) ∧
      (m.get? name = none →
        GetSchema (.ok visit) name = .error ("schema not found: " ++ name))) := by
  refine ⟨fun err herr => by rw [herr]; rfl, fun m visit hm hperm => ?_⟩
  have hnd := (createAllSchemaMap_inv lower rows m hm).1
  have hsome : ∀ sc, m.get? name = some sc →
      GetSchema (.ok visit) name = .ok sc ∧ sc.Name = name := by
    intro sc hsc
    refine ⟨GetSchema_of_get?_some m visit name sc hnd hperm hsc, ?_⟩
    have hentry := createAllSchemaMap_entry lower rows m hm name sc
      (GoMap.mem_of_get? m name sc hsc)
    rw [hentry.2]
    rfl
  refine ⟨⟨fun ⟨sc, hsc⟩ => ?_, fun ⟨sc, hsc⟩ => ⟨sc, (hsome sc hsc).1⟩⟩, hsome,
    GetSchema_of_get?_none m visit name hperm⟩
  cases hget : m.get? name with
  | some sc' => exact ⟨sc', rfl⟩
  | none =>
    rw [GetSchema_of_get?_none m visit name hperm hget] at hsc
    exact absurd hsc (by simp)

theorem GetSchema_spec_witness :
    createAllSchemaMap asciiLower demoRows = .ok demoMap ∧
    demoMap.get? "posts" =
      some { Name := "posts"
             Columns := [{ Name := "id", Type_ := ColumnTypeInt, NotNull := true }]
             PrimaryKey := some { ColumnNames := ["id"] } } ∧
    (GetSchema (.ok demoMap.reverse) "posts" =
        .ok { Name := "posts"
              Columns := [{ Name := "id", Type_ := ColumnTypeInt, NotNull := true }]
              PrimaryKey := some { ColumnNames := ["id"] } } ∧
      ({ Name := "posts"
         Columns := [{ Name := "id", Type_ := ColumnTypeInt, NotNull := true }]
         PrimaryKey := some { ColumnNames := ["id"] } } : Schema).Name = "posts") ∧
    GetSchema (.ok demoMap.reverse) "orders" = .error "schema not found: orders" ∧
    GetSchema (createAllSchemaMap asciiLower [⟨"t", "kind", 1, "ENUM('a','b')", "", "NO", ""⟩]) "t"
      = .error "convertion not found for MySQL type: enum('a','b')" :=
  ⟨rfl, rfl,
    ((GetSchema_spec asciiLower demoRows "posts").2 demoMap demoMap.reverse rfl
      (List.reverse_perm demoMap)).2.1 _ rfl,
    ((GetSchema_spec asciiLower demoRows "orders").2 demoMap demoMap.reverse rfl
      (List.reverse_perm demoMap)).2.2 rfl,
    (GetSchema_spec asciiLower [⟨"t", "kind", 1, "ENUM('a','b')", "", "NO", ""⟩] "t").1 _ rfl⟩

/-! ### Rows: `scanRow` and `MockDatasource.GetRows` -/

theorem GoMap.mem_set {V : Type} (m : GoMap V) (k : String) (v : V) (e : String × V)
    (h : e ∈ m.set k v) : e = (k, v) ∨ e ∈ m := by
  induction m with
  | nil => simpa [GoMap.set] using h
  | cons e₀ rest ih =>
    obtain ⟨k₀, v₀⟩ := e₀
    by_cases hk : k₀ = k
    · simp only [GoMap.set, hk, if_true, List.mem_cons] at h
      rcases h with h | h
      · exact Or.inl h
      · exact Or.inr (List.mem_cons_of_mem _ h)
    · simp only [GoMap.set, hk, if_false, List.mem_cons] at h
      rcases h with h | h
      · exact Or.inr (by simp [h])
      · rcases ih h with h' | h'
        · exact Or.inl h'
        · exact Or.inr (List.mem_cons_of_mem _ h')

theorem RowFilled.nil {V : Type} : @RowFilled V [] [] := by
  refine ⟨by simp [GoMap.keys], by simp [GoMap.keys], by simp⟩

theorem RowFilled.set {V : Type} (cols : List Column) (rv : RowValues V)
    (col : Column) (x : V) (h : RowFilled cols rv) :
    RowFilled (cols ++ [col]) (GoMap.set rv col.Name { Column := col, Value := x }) := by
  obtain ⟨hnd, hkeys, hvals⟩ := h
  refine ⟨GoMap.nodup_keys_set _ _ _ hnd, fun k => ?_, fun k v hmem => ?_⟩
  · rw [GoMap.mem_keys_set, hkeys]
    constructor
    · rintro (hk | ⟨c, hc, hck⟩)
      · exact ⟨col, by simp, hk.symm⟩
      · exact ⟨c, by simp [hc], hck⟩
    · rintro ⟨c, hc, hck⟩
      rcases List.mem_append.mp hc with hc | hc
      · exact Or.inr ⟨c, hc, hck⟩
      · simp only [List.mem_singleton] at hc
        subst hc
        exact Or.inl hck.symm
  · rcases GoMap.mem_set rv _ _ _ hmem with heq | hold
    · cases heq
      simp
    · obtain ⟨h1, h2⟩ := hvals k v hold
      exact ⟨by simp [h1], h2⟩

theorem scanRowFill_filled {V : Type} (sqlRows : SqlRows V) (rest : List Column) :
    ∀ (cols : List Column) (i : Nat) (rv : RowValues V), RowFilled cols rv →
      RowFilled (cols ++ rest) (scanRowFill sqlRows rest i rv) := by
  induction rest with
  | nil => intro cols i rv h; simpa [scanRowFill] using h
  | cons col rest ih =>
    intro cols i rv h
    have := ih (cols ++ [col]) (i + 1) _ (RowFilled.set cols rv col
      (sqlRows.cell i (colToMySQLType col)) h)
    simpa [scanRowFill] using this

theorem mockRowValues_filled (n : Nat) (rest : List Column) :
    ∀ (cols : List Column) (rv : RowValues MockValue), RowFilled cols rv →
      RowFilled (cols ++ rest) (mockRowValues n rest rv) := by
  induction rest with
  | nil => intro cols rv h; simpa [mockRowValues] using h
  | cons col rest ih =>
    intro cols rv h
    have := ih (cols ++ [col]) _ (RowFilled.set cols rv col (mockValue col n) h)
    simpa [mockRowValues] using this

/-- C5: in a row `scanRow` returns for a schema, and in every row
`MockDatasource.GetRows` returns for it, the keys of `Values` are exactly the
names of the schema's columns, and the value under a key carries a column of the
schema with that name. -/
theorem row_values_match_schema {V : Type} (sqlRows : SqlRows V) (sc : Schema) :
    (∀ row, scanRow sqlRows sc = Outcome.ok row →
      (∀ k, k ∈ GoMap.keys row.Values ↔ ∃ c ∈ sc.Columns, c.Name = k) ∧
      (∀ k v, (k, v) ∈ row.Values → v.Column ∈ sc.Columns ∧ v.Column.Name = k) ∧
      (∀ k v, GoMap.get? row.Values k = some v →
        v.Column ∈ sc.Columns ∧ v.Column.Name = k)) ∧
    (∀ rows, MockDatasource.GetRows sc = .ok rows → ∀ row ∈ rows,
      (∀ k, k ∈ GoMap.keys row.Values ↔ ∃ c ∈ sc.Columns, c.Name = k) ∧
      (∀ k v, (k, v) ∈ row.Values → v.Column ∈ sc.Columns ∧ v.Column.Name = k) ∧
      (∀ k v, GoMap.get? row.Values k = some v →
        v.Column ∈ sc.Columns ∧ v.Column.Name = k)) := by
  constructor
  · intro row hrow
    have hfill := scanRowFill_filled sqlRows sc.Columns [] 0 [] RowFilled.nil
    simp only [List.nil_append] at hfill
    have hvals : row.Values = scanRowFill sqlRows sc.Columns 0 [] := by
      unfold scanRow at hrow
      simp only at hrow
      split_ifs at hrow
      cases hscan : sqlRows.scanErr (sc.Columns.map colToMySQLType) with
      | some e => simp [hscan] at hrow
      | none =>
        simp only [hscan, Outcome.ok.injEq] at hrow
        rw [← hrow]
    rw [hvals]
    exact ⟨hfill.2.1, hfill.2.2, fun k v hget => hfill.2.2 k v (GoMap.mem_of_get? _ k v hget)⟩
  · intro rows hrows row hrow
    simp only [MockDatasource.GetRows, Except.ok.injEq] at hrows
    subst hrows
    simp only [List.mem_map, List.mem_range] at hrow
    obtain ⟨n, _, hn⟩ := hrow
    have hfill := mockRowValues_filled n sc.Columns [] [] RowFilled.nil
    simp only [List.nil_append] at hfill
    subst hn
    exact ⟨hfill.2.1, hfill.2.2, fun k v hget => hfill.2.2 k v (GoMap.mem_of_get? _ k v hget)⟩

theorem row_values_match_schema_witness :
    scanRow (SqlRows.mk (fun _ => none) (fun i _ => i))
        { Name := "posts"
          Columns := [{ Name := "id", Type_ := ColumnTypeInt, NotNull := true }]
          PrimaryKey := some { ColumnNames := ["id"] } }
      = Outcome.ok
        { Values := [("id",
            { Column := { Name := "id", Type_ := ColumnTypeInt, NotNull := true },
              Value := 0 })] } ∧
    (∀ k v, (k, v) ∈ ([("id",
        { Column := { Name := "id", Type_ := ColumnTypeInt, NotNull := true },
          Value := 0 })] : RowValues Nat) →
      v.Column ∈ [({ Name := "id", Type_ := ColumnTypeInt, NotNull := true } : Column)] ∧
        v.Column.Name = k) :=
  ⟨rfl, ((row_values_match_schema (SqlRows.mk (fun _ => none) (fun i _ => i))
      { Name := "posts"
        Columns := [{ Name := "id", Type_ := ColumnTypeInt, NotNull := true }]
        PrimaryKey := some { ColumnNames := ["id"] } }).1 _ rfl).2.1⟩

/-! ### `MockDatasource` -/

theorem mockRowValues_mock (i : Nat) :
    mockRowValues i mockColumns []
      = [ ("id", { Column := { Name := "id", Type_ := ColumnTypeInt }, Value := .int i }),
          ("name", { Column := { Name := "name", Type_ := ColumnTypeString },
                     Value := .str ("name" ++ toString i) }),
          ("age", { Column := { Name := "age", Type_ := ColumnTypeInt }, Value := .int i }),
          ("birthday", { Column := { Name := "birthday", Type_ := ColumnTypeString },
                         Value := .str "2018-05-28 14:31:00" }) ] := by
  simp [mockColumns, mockRowValues, GoMap.set, mockValue]

theorem mockRows_getElem? (i : Nat) (hi : i < 100) :
    ((List.range 100).map
        fun i => ({ Values := mockRowValues i mockColumns [] } : Row MockValue))[i]?
      = some { Values := mockRowValues i mockColumns [] } := by
  simp [List.getElem?_map, List.getElem?_range hi]

/-- C6: `MockDatasource.GetSchema` returns the columns id, name, age, birthday
with primary key `["id"]`, a name of one of its columns; for that schema
`MockDatasource.GetRows` returns 100 rows, row `i` holding id `i`, name `name`
followed by the decimal of `i`, age `i` and birthday `2018-05-28 14:31:00`; no
two rows agree on the primary-key column. -/
theorem MockDatasource_rows (name : String) :
    ∃ (sc : Schema) (rows : List (Row MockValue)),
      MockDatasource.GetSchema name = .ok sc ∧
      sc.Columns.map (fun c => c.Name) = ["id", "name", "age", "birthday"] ∧
      sc.PrimaryKey = some { ColumnNames := ["id"] } ∧
      (∀ n ∈ ["id"], ∃ c ∈ sc.Columns, c.Name = n) ∧
      MockDatasource.GetRows sc = .ok rows ∧
      rows.length = 100 ∧
      (∀ i : Nat, i < 100 → ∃ row, rows[i]? = some row ∧
        (GoMap.get? row.Values "id").map (fun v => v.Value) = some (.int i) ∧
        (GoMap.get? row.Values "name").map (fun v => v.Value)
          = some (.str ("name" ++ toString i)) ∧
        (GoMap.get? row.Values "age").map (fun v => v.Value) = some (.int i) ∧
        (GoMap.get? row.Values "birthday").map (fun v => v.Value)
          = some (.str "2018-05-28 14:31:00")) ∧
      (∀ (i j : Nat) (ri rj : Row MockValue), i ≠ j →
        rows[i]? = some ri → rows[j]? = some rj →
        (GoMap.get? ri.Values "id").map (fun v => v.Value)
          ≠ (GoMap.get? rj.Values "id").map (fun v => v.Value)) := by
  refine ⟨{ Columns := mockColumns, PrimaryKey := some { ColumnNames := ["id"] } },
    (List.range 100).map fun i => { Values := mockRowValues i mockColumns [] },
    rfl, rfl, rfl, by simp [mockColumns], rfl, by simp,
    fun i hi => ⟨_, mockRows_getElem? i hi, ?_⟩, fun i j ri rj hij hi hj => ?_⟩
  · simp [mockRowValues_mock, GoMap.get?, mockValue]
  · have hi' : i < 100 := by
      have := (List.getElem?_eq_some_iff.mp hi).1
      simpa using this
    have hj' : j < 100 := by
      have := (List.getElem?_eq_some_iff.mp hj).1
      simpa using this
    rw [mockRows_getElem? i hi'] at hi
    rw [mockRows_getElem? j hj'] at hj
    cases hi
    cases hj
    simp [mockRowValues_mock, GoMap.get?, mockValue, hij]

/-! ### The CSV connector -/

/-- Reading back what `SetRows` wrote: the values are the ones written, and
the columns are the fields after the tag of the written records tagged
`COLUMN`, whenever reading succeeds. -/
theorem CSVDataSource_GetRows_SetRows (files : CSVFiles) (path : String) (rows got : Rows)
    (h : CSVDataSource.GetRows (CSVDataSource.SetRows files path rows) path = .ok got) :
    got.Values = rows.Values ∧
    csvColumns (rows.Columns :: rows.Values) [] = .ok got.Columns := by
  simp only [CSVDataSource.GetRows, CSVDataSource.SetRows, if_true] at h
  cases hcols : csvColumns (rows.Columns :: rows.Values) [] with
  | panic msg => simp [hcols] at h
  | err e => simp [hcols] at h
  | ok columns =>
    simp only [hcols] at h
    split_ifs at h
    simp only [Outcome.ok.injEq] at h
    subst h
    exact ⟨rfl, rfl⟩

/-- C10, the code at the failing input: after `SetRows` of the columns
`id, name` and one row, `GetRows` on the same path finds no record tagged
`COLUMN` and returns the error `No columns in CSV`. -/
theorem CSVDataSource_roundtrip_fails :
    CSVDataSource.GetRows
        (CSVDataSource.SetRows (fun p => .error ("open " ++ p)) "t.csv"
          { Columns := ["id", "name"], Values := [["1", "a"]] }) "t.csv"
      = Outcome.err "No columns in CSV. Path: t.csv" := by
  rfl

end Tamate
